import Mathlib

/-!
A verification development for `pyredex/utils.py`: a shallow embedding of the
extract/unpack/repack pipeline helpers (dex discovery and ordering, the
`ZipManager`, `UnpackManager` and `LibraryManager` scoped resources, and the
temporary-directory cleanup wrapper), together with theorems settling the
specification's claims about them.

Conventions of the embedding:
* Python strings are Lean `String`s; character-level work happens on `.data`.
* Filesystem effects are made explicit: the set of files a directory holds, the
  `(root, filenames)` sequence produced by `os.walk`, and the sizes reported by
  `os.path.getsize` are passed in as data; functions return the values written
  or the directories acted upon.
* Fallible Python code (functions that `raise`) returns `Except String`.
* Python's stable `list.sort` is modelled by `List.insertionSort`, which is
  also stable and produces the same sorted result.
-/

namespace Redex

/-! ### String primitives

`str.endswith` / `str.startswith`, modelled on the character lists so that all
comparisons kernel-reduce. -/

/-- Model of Python `s.endswith(pat)`. -/
def strEndsWith (s pat : String) : Bool := pat.data.isSuffixOf s.data

/-- Model of Python `s.startswith(pat)`. -/
def strStartsWith (s pat : String) : Bool := pat.data.isPrefixOf s.data

/-! ### `extract_dex_number` (utils.py lines 145-149)

The source computes `re.search(r"(classes|.*-)(\d+)", basename(dexfilename))`
and converts group 2 to an integer, raising `Bad secondary dex name` when the
pattern has no match.  The regex is embedded directly, with Python's matching
semantics: `re.search` tries every start position left to right; at a given
position the alternation tries the literal `classes` before `.*-`; `.*` is
greedy, so the rightmost hyphen that is followed by a digit wins; `\d+` then
captures the maximal digit run.  (`\d` is modelled as an ASCII digit and the
argument is taken to be a bare filename, i.e. its own `basename`.) -/

/-- The characters of the literal alternative `classes`. -/
def classesChars : List Char := ['c', 'l', 'a', 's', 's', 'e', 's']

/-- Maximal digit run at the front of a character list (what `\d+` captures). -/
def digitRun (cs : List Char) : List Char := cs.takeWhile (fun c => c.isDigit)

/-- Numeric value of a digit run, as computed by Python's `int`. -/
def digitsToNat (ds : List Char) : Nat := ds.foldl (fun n c => 10 * n + (c.toNat - 48)) 0

/-- Attempt of the branch `classes(\d+)` at the current start position. -/
def matchClassesAt (cs : List Char) : Option (List Char) :=
  if classesChars.isPrefixOf cs then
    let ds := digitRun (cs.drop 7)
    if ds.isEmpty then none else some ds
  else none

/-- Attempt of the branch `.*-(\d+)` at the current start position: the greedy
`.*` backtracks from the end, so the rightmost hyphen followed by a digit is
taken. -/
def matchHyphenAt : List Char → Option (List Char)
  | [] => none
  | c :: rest =>
    match matchHyphenAt rest with
    | some ds => some ds
    | none =>
      if c == '-' then
        let ds := digitRun rest
        if ds.isEmpty then none else some ds
      else none

/-- `re.search` over the whole pattern: start positions are tried left to
right, and at each position `classes` is preferred over `.*-`.  Returns the
digit run captured by group 2. -/
def reSearchGroup2 : List Char → Option (List Char)
  | [] => none
  | c :: rest =>
    match matchClassesAt (c :: rest) with
    | some ds => some ds
    | none =>
      match matchHyphenAt (c :: rest) with
      | some ds => some ds
      | none => reSearchGroup2 rest

/-- `extract_dex_number` (utils.py 145-149): the numeric ordering key of a
secondary dex filename, or the `Bad secondary dex name` error. -/
def extract_dex_number (dexfilename : String) : Except String Nat :=
  match reSearchGroup2 dexfilename.data with
  | some ds => Except.ok (digitsToNat ds)
  | none => Except.error ("Bad secondary dex name: " ++ dexfilename)

/-! ### `dex_glob` (utils.py lines 152-165)

The directory is represented by the list of filenames it holds, in the
(arbitrary) order `glob.glob` reports them.  The returned entries are the
filenames relative to the directory. -/

/-- The secondary dex candidates of a directory: the `*.dex` files (`glob`
skips names that begin with a dot) whose path does not end with
`classes.dex` — the filter on utils.py line 161. -/
def secondariesOf (files : List String) : List String :=
  files.filter (fun d =>
    strEndsWith d ".dex" && !strStartsWith d "." && !strEndsWith d "classes.dex")

/-- Comparison used to sort secondaries: `key=extract_dex_number`, ascending. -/
def dexKeyLE (p q : String × Nat) : Prop := p.2 ≤ q.2

instance : DecidableRel dexKeyLE := fun p q => Nat.decLe p.2 q.2

instance : IsTotal (String × Nat) dexKeyLE := ⟨fun p q => Nat.le_total p.2 q.2⟩

instance : IsTrans (String × Nat) dexKeyLE := ⟨fun _ _ _ h1 h2 => Nat.le_trans h1 h2⟩

/-- CPython's `list.sort(key=f)` first decorates every element with its key, in
list order, so the first failing key raises before any comparison happens. -/
def decorate : List String → Except String (List (String × Nat))
  | [] => Except.ok []
  | f :: rest =>
    match extract_dex_number f with
    | Except.error e => Except.error e
    | Except.ok n =>
      match decorate rest with
      | Except.error e => Except.error e
      | Except.ok ps => Except.ok ((f, n) :: ps)

/-- `dex_glob` (utils.py 152-165): the primary `classes.dex` must be present,
and the remaining `*.dex` files are sorted by `extract_dex_number`. -/
def dex_glob (files : List String) : Except String (List String) :=
  if "classes.dex" ∈ files then
    match decorate (secondariesOf files) with
    | Except.ok pairs =>
        Except.ok ("classes.dex" :: (List.insertionSort dexKeyLE pairs).map Prod.fst)
    | Except.error e => Except.error e
  else Except.error "No primary dex found"

/-! ### `ZipManager` (utils.py lines 202-242)

`per_file_compression = \x7b\x7d` is a **class** attribute: `__enter__` mutates it
in place (`self.per_file_compression[info.filename] = ...`), so every
`ZipManager` instance in the process shares one dictionary.  The dictionary is
modelled as an association list in which the most recent assignment comes
first, threaded through the enter/exit calls. -/

/-- `zipfile.ZIP_STORED`. -/
def ZIP_STORED : Nat := 0

/-- `zipfile.ZIP_DEFLATED`, the fallback compression for unknown paths. -/
def ZIP_DEFLATED : Nat := 8

/-- A dictionary assignment `m[k] = v`: the newest binding shadows older ones
(`List.lookup` returns the first hit). -/
def dictInsert (m : List (String × Nat)) (k : String) (v : Nat) : List (String × Nat) :=
  (k, v) :: m

/-- `ZipManager.__enter__` (utils.py 215-220): records each input entry's
compression method into the shared `per_file_compression` dictionary, keyed by
archive path.  `infolist` carries `(info.filename, info.compress_type)`. -/
def zip_enter (per_file_compression : List (String × Nat))
    (infolist : List (String × Nat)) : List (String × Nat) :=
  infolist.foldl (fun m info => dictInsert m info.1 info.2) per_file_compression

/-- The compression method `__exit__` chooses for one archive path: the
recorded method when the dictionary knows the path, `ZIP_DEFLATED` otherwise
(utils.py 238-241). -/
def compress_for (per_file_compression : List (String × Nat)) (archivepath : String) : Nat :=
  match per_file_compression.lookup archivepath with
  | some c => c
  | none => ZIP_DEFLATED

/-- `ZipManager.__exit__` (utils.py 228-242), given the archive-relative paths
in the order the sorted walk emits them: the `(path, compress_type)` entries
written to the output archive. -/
def zip_exit (per_file_compression : List (String × Nat))
    (walkOrder : List String) : List (String × Nat) :=
  walkOrder.map (fun archivepath => (archivepath, compress_for per_file_compression archivepath))

/-! ### The sorted walk of `ZipManager.__exit__`

`os.walk` reports each directory's subdirectory names and filenames in an
order the OS chooses; the source sorts `dirnames` in place (controlling the
recursion order) and iterates `sorted(filenames)`.  A directory tree is a node
holding its filenames and its named subdirectories, both in arbitrary OS
order. -/

/-- A directory tree as `os.walk` sees it: filenames and named subtrees, each
list in the arbitrary order the OS reports. -/
inductive FTree : Type where
  | node : List String → List (String × FTree) → FTree

/-- `sorted(filenames)` (Python sorts strings by code point, which is the
`String` linear order). -/
def sortStr (l : List String) : List String := List.insertionSort (· ≤ ·) l

/-- The order on subdirectory entries induced by `dirnames.sort()`. -/
def dirLE (p q : String × FTree) : Prop := p.1 ≤ q.1

instance : DecidableRel dirLE := fun p q => String.decidableLE p.1 q.1

instance : IsTotal (String × FTree) dirLE := ⟨fun p q => le_total p.1 q.1⟩

instance : IsTrans (String × FTree) dirLE := ⟨fun _ _ _ h1 h2 => le_trans h1 h2⟩

/-- `dirnames.sort()`. -/
def sortDirs (l : List (String × FTree)) : List (String × FTree) :=
  List.insertionSort dirLE l

theorem perm_sizeOf_eq {α : Type} [SizeOf α] {l1 l2 : List α} (h : l1.Perm l2) :
    sizeOf l1 = sizeOf l2 := by
  induction h with
  | nil => rfl
  | cons x _ ih => simp [ih]
  | swap x y l => simp; omega
  | trans _ _ ih1 ih2 => omega

mutual
/-- The archive paths `ZipManager.__exit__` emits, in emission order: the walk
visits a directory, writes its filenames in sorted order, then recurses into
its subdirectories in sorted name order (utils.py 233-237).  `pre` is the
archive-relative path of the current directory (with trailing separator). -/
def walkFiles (pre : String) : FTree → List String
  | FTree.node files dirs =>
    (sortStr files).map (fun f => pre ++ f) ++ walkSubdirs pre (sortDirs dirs)
  termination_by t => sizeOf t
  decreasing_by
    simp [FTree.node.sizeOf_spec]
    have h1 : sizeOf (sortDirs dirs) = sizeOf dirs :=
      perm_sizeOf_eq (List.perm_insertionSort dirLE dirs)
    omega

/-- The walk over an already-sorted list of subdirectories. -/
def walkSubdirs (pre : String) : List (String × FTree) → List String
  | [] => []
  | p :: rest => walkFiles (pre ++ p.1 ++ "/") p.2 ++ walkSubdirs pre rest
  termination_by l => sizeOf l
  decreasing_by
    · cases p with
      | mk a b =>
        simp only [List.cons.sizeOf_spec, Prod.mk.sizeOf_spec]
        omega
    · simp only [List.cons.sizeOf_spec]
      omega
end

/-- Two trees hold the same contents, the lists at each level possibly in
different OS orders: the filenames are a permutation, the subdirectory names
are a permutation, and subdirectories carrying the same name hold equivalent
subtrees.  (On a real filesystem the names at one level are distinct.) -/
inductive TreeEquiv : FTree → FTree → Prop where
  | node : ∀ {files₁ files₂ : List String} {dirs₁ dirs₂ : List (String × FTree)},
      files₁.Perm files₂ →
      (dirs₁.map Prod.fst).Perm (dirs₂.map Prod.fst) →
      (∀ name t₁ t₂, (name, t₁) ∈ dirs₁ → (name, t₂) ∈ dirs₂ → TreeEquiv t₁ t₂) →
      TreeEquiv (FTree.node files₁ dirs₁) (FTree.node files₂ dirs₂)

/-! ### `UnpackManager` (utils.py lines 245-329)

`__enter__` stores the modules found by `ApplicationModule.detect` on the
instance and returns one metadata path per module; `__exit__` walks the stored
list with `locator_store_id` starting at 1 and incremented once per module.
Modules are represented by their names. -/

/-- The state `UnpackManager.__enter__` leaves behind: the detected modules,
in discovery order. -/
structure UnpackManager where
  application_modules : List String

/-- `UnpackManager.__enter__` (utils.py 281-301): captures the detected module
list and returns the `store_files` metadata paths, one `<name>.json` per
module in discovery order. -/
def unpack_enter (detected : List String) : UnpackManager × List String :=
  (⟨detected⟩, detected.map (fun name => name ++ ".json"))

/-- `UnpackManager.__exit__` (utils.py 314-329): the `module.repackage`
invocations performed, in order, as `(module, locator_store_id)` pairs;
`locator_store_id` starts at 1 and is incremented after each module. -/
def unpack_exit (self : UnpackManager) : List (String × Nat) :=
  (self.application_modules.foldl
    (fun acc module => (acc.1 ++ [(module, acc.2)], acc.2 + 1))
    (([] : List (String × Nat)), 1)).1

/-! ### `with_temp_cleanup` (utils.py lines 37-59)

The global `temp_dirs` registry is passed explicitly; `make_temp_dir` appends
to it unless `debug` is set, and `remove_temp_dirs` deletes every registered
directory. -/

/-- `make_temp_dir` (utils.py 37-43): registers the new directory unless
`debug` is set. -/
def make_temp_dir (temp_dirs : List String) (directory : String) (debug : Bool) :
    List String :=
  if debug then temp_dirs else temp_dirs ++ [directory]

/-- `remove_temp_dirs` (utils.py 46-49): every registered directory is
removed. -/
def remove_temp_dirs (temp_dirs : List String) : List String :=
  temp_dirs.filter (fun _ => false)

/-- `with_temp_cleanup` (utils.py 52-59): `success` starts as `always_clean`,
is set to `True` only when `fn()` returns, and the `finally` block removes the
registered directories only when `success` holds.  Returns the directories
still registered afterwards and whether the exception propagates.
`temp_dirs` is the registry contents when `fn` terminated. -/
def with_temp_cleanup (always_clean : Bool) (fn_raises : Bool)
    (temp_dirs : List String) : List String × Bool :=
  let success := if fn_raises then always_clean else true
  (if success then remove_temp_dirs temp_dirs else temp_dirs, fn_raises)

/-! ### `LibraryManager` (utils.py lines 185-195 and 344-389)

`__enter__` scans the extracted tree for `libs.xzs` and `libs.zstd` blobs; a
zero-byte `libs.zstd` is skipped.  When anything was queued, the `lib` /
`lib/__extracted_libs__` pair is ensured and `temporary_libs_dir` is set to
whichever directory `ensure_libs_dir` created; `__exit__` removes exactly that
directory.  The walk is given as `(root, [(filename, size)])` entries. -/

/-- The `xz`-compressed blob naming convention. -/
def xz_lib_name : String := "libs.xzs"

/-- The `zstd`-compressed blob naming convention. -/
def zstd_lib_name : String := "libs.zstd"

/-- One directory's contribution to the extraction queue (the two inner loops
of utils.py 363-369): the `libs.xzs` matches, then the `libs.zstd` matches
whose `os.path.getsize` is positive. -/
def dirLibs (entry : String × List (String × Nat)) : List String :=
  ((entry.2.filter (fun p => p.1 == xz_lib_name)).map (fun p => entry.1 ++ "/" ++ p.1))
    ++ ((entry.2.filter (fun p => p.1 == zstd_lib_name && decide (0 < p.2))).map
          (fun p => entry.1 ++ "/" ++ p.1))

/-- The queue built by the walk loop of `LibraryManager.__enter__` (utils.py
362-369). -/
def libs_to_extract (walk : List (String × List (String × Nat))) : List String :=
  walk.foldl (fun acc entry => acc ++ dirLibs entry) []

/-- `ensure_libs_dir` (utils.py 185-195): returns the topmost directory it had
to create — `sub_dir` when `libs_dir` already existed, `libs_dir` otherwise. -/
def ensure_libs_dir (libs_dir_exists : Bool) (libs_dir sub_dir : String) : String :=
  if libs_dir_exists then sub_dir else libs_dir

/-- `LibraryManager.__enter__` (utils.py 355-383): the value of
`temporary_libs_dir` afterwards — set only when the queue is non-empty,
otherwise left as the class-level `None`. -/
def library_enter (extracted_apk_dir : String)
    (walk : List (String × List (String × Nat))) (lib_dir_exists : Bool) :
    Option String :=
  let libs := libs_to_extract walk
  if 0 < libs.length then
    some (ensure_libs_dir lib_dir_exists (extracted_apk_dir ++ "/lib")
      (extracted_apk_dir ++ "/lib" ++ "/__extracted_libs__"))
  else none

/-- `LibraryManager.__exit__` (utils.py 385-389): the directory passed to
`shutil.rmtree`, or `none` when `temporary_libs_dir` was never set. -/
def library_exit (temporary_libs_dir : Option String) : Option String :=
  temporary_libs_dir

/-! ### Conditions named by the error-handling claims -/

/-- Some suffix of the characters starts with the literal `classes`
immediately followed by a digit. -/
def hasClassesDigit : List Char → Bool
  | [] => false
  | c :: rest =>
    (classesChars.isPrefixOf (c :: rest) && !(digitRun ((c :: rest).drop 7)).isEmpty)
      || hasClassesDigit rest

/-- Some hyphen in the characters is immediately followed by a digit. -/
def hasHyphenDigit : List Char → Bool
  | [] => false
  | c :: rest => (c == '-' && !(digitRun rest).isEmpty) || hasHyphenDigit rest

/-! ## Helper lemmas -/

theorem unpack_exit_loop (mods : List String) :
    ∀ (acc : List (String × Nat)) (i : Nat),
      (mods.foldl (fun a module => (a.1 ++ [(module, a.2)], a.2 + 1)) (acc, i)).1
        = acc ++ mods.zip (List.range' i mods.length) := by
  induction mods with
  | nil => intro acc i; simp
  | cons m ms ih =>
      intro acc i
      simp only [List.foldl_cons, List.length_cons, List.range'_succ, List.zip_cons_cons]
      rw [ih]
      simp

theorem libs_to_extract_loop :
    ∀ (walk : List (String × List (String × Nat))) (init : List String),
      walk.foldl (fun acc entry => acc ++ dirLibs entry) init = init ++ walk.flatMap dirLibs := by
  intro walk
  induction walk with
  | nil => intro init; simp
  | cons e rest ih => intro init; simp [ih]

theorem libs_to_extract_eq_bind (walk : List (String × List (String × Nat))) :
    libs_to_extract walk = walk.flatMap dirLibs := by
  simpa using libs_to_extract_loop walk []

/-! ## Claim theorems -/

/-- C1 (code bug): `per_file_compression` is a class attribute, so every
`ZipManager` in the process shares one dictionary.  After a first archive
recorded `lib/x.so` as stored, a second archive that does not contain
`lib/x.so` at all still writes that path with the stale recorded method,
not the `ZIP_DEFLATED` fallback the claim (and the spec's Archive invariant)
promises for paths absent from the input archive.  The final conjunct shows
the fallback does apply when the dictionary has no stale entry, i.e. for the
first archive a process opens. -/
theorem zip_exit_stale_method_across_instances :
    zip_exit (zip_enter (zip_enter [] [("lib/x.so", ZIP_STORED)]) []) ["lib/x.so"]
        = [("lib/x.so", ZIP_STORED)]
      ∧ ZIP_STORED ≠ ZIP_DEFLATED
      ∧ zip_exit (zip_enter [] []) ["lib/x.so"] = [("lib/x.so", ZIP_DEFLATED)] :=
  ⟨rfl, by decide, rfl⟩

/-- C4: `UnpackManager.__exit__` repacks exactly the modules captured at
`__enter__`, in the identical discovery order, and the i-th module (1-based)
receives locator id i. -/
theorem unpack_exit_locator_ids (detected : List String) :
    unpack_exit (unpack_enter detected).1
        = detected.zip (List.range' 1 detected.length)
      ∧ (unpack_exit (unpack_enter detected).1).map Prod.fst = detected
      ∧ (unpack_exit (unpack_enter detected).1).map Prod.snd
          = List.range' 1 detected.length := by
  have h : unpack_exit (unpack_enter detected).1
      = detected.zip (List.range' 1 detected.length) := by
    unfold unpack_exit unpack_enter
    simpa using unpack_exit_loop detected [] 1
  refine ⟨h, ?_, ?_⟩
  · rw [h, List.map_fst_zip]
    simp
  · rw [h, List.map_snd_zip]
    simp

/-- C5 counterexample: with the default `always_clean = false`, a directory
registered through `make_temp_dir` is not removed when the wrapped function
raises — `success` is still false in the `finally` block — refuting the claim
at a concrete input (the failure does still propagate). -/
theorem with_temp_cleanup_keeps_dirs_on_raise :
    with_temp_cleanup false true (make_temp_dir [] "/tmp/redex.tmp" false)
        = (["/tmp/redex.tmp"], true)
      ∧ (["/tmp/redex.tmp"] : List String) ≠ [] :=
  ⟨rfl, by decide⟩

/-- C5 amended: when the wrapped function raises, the registered temporary
directories are removed before the failure propagates exactly when
`always_clean` is true; with the default `always_clean = false` they are
retained.  The failure propagates to the caller either way. -/
theorem with_temp_cleanup_on_raise (always_clean : Bool) (temp_dirs : List String) :
    with_temp_cleanup always_clean true temp_dirs
        = (if always_clean then remove_temp_dirs temp_dirs else temp_dirs, true)
      ∧ remove_temp_dirs temp_dirs = [] := by
  constructor
  · cases always_clean <;> rfl
  · simp [remove_temp_dirs]

/-- C6: when the directory holds no file named `classes.dex`, `dex_glob`
raises `No primary dex found` and returns no sequence. -/
theorem dex_glob_missing_primary (files : List String)
    (h : "classes.dex" ∉ files) :
    dex_glob files = Except.error "No primary dex found" := by
  simp [dex_glob, h]

/-- Witness for C6 at the spec's example: a directory holding only
`classes2.dex`. -/
theorem dex_glob_missing_primary_witness :
    "classes.dex" ∉ ["classes2.dex"]
      ∧ dex_glob ["classes2.dex"] = Except.error "No primary dex found" :=
  ⟨by decide, dex_glob_missing_primary ["classes2.dex"] (by decide)⟩

/-- C9: a file whose name ends with `classes.dex` but is not the primary
itself is silently omitted by `dex_glob`: the result over a directory that
holds it equals the result over the directory without it, so it is neither
treated as a secondary nor rejected as an error. -/
theorem dex_glob_skips_other_classes_dex (l1 l2 : List String) (f : String)
    (hend : strEndsWith f "classes.dex" = true) (hne : f ≠ "classes.dex") :
    dex_glob (l1 ++ f :: l2) = dex_glob (l1 ++ l2) := by
  have hsec : secondariesOf (l1 ++ f :: l2) = secondariesOf (l1 ++ l2) := by
    unfold secondariesOf
    simp only [List.filter_append, List.filter_cons]
    simp [hend]
  have hmem : ("classes.dex" ∈ l1 ++ f :: l2) ↔ ("classes.dex" ∈ l1 ++ l2) := by
    simp only [List.mem_append, List.mem_cons]
    constructor
    · rintro (h | h | h)
      · exact Or.inl h
      · exact absurd h.symm hne
      · exact Or.inr h
    · rintro (h | h)
      · exact Or.inl h
      · exact Or.inr (Or.inr h)
  unfold dex_glob
  rw [hsec]
  by_cases hp : "classes.dex" ∈ l1 ++ l2
  · rw [if_pos (hmem.mpr hp), if_pos hp]
  · rw [if_neg (fun hx => hp (hmem.mp hx)), if_neg hp]

/-- Witness for C9: `myclasses.dex` next to the primary is silently dropped,
and the result is just the primary. -/
theorem dex_glob_skips_other_classes_dex_witness :
    strEndsWith "myclasses.dex" "classes.dex" = true
      ∧ "myclasses.dex" ≠ "classes.dex"
      ∧ dex_glob ["classes.dex", "myclasses.dex"] = dex_glob ["classes.dex"]
      ∧ dex_glob ["classes.dex", "myclasses.dex"] = Except.ok ["classes.dex"] :=
  ⟨by decide, by decide,
    dex_glob_skips_other_classes_dex ["classes.dex"] [] "myclasses.dex" (by decide) (by decide),
    by rfl⟩

/-- C3 helper: a successful decoration pairs every secondary with its own
successfully extracted key, in list order. -/
theorem decorate_ok :
    ∀ {files : List String} {pairs : List (String × Nat)},
      decorate files = Except.ok pairs →
      pairs.map Prod.fst = files ∧ ∀ p ∈ pairs, extract_dex_number p.1 = Except.ok p.2 := by
  intro files
  induction files with
  | nil =>
      intro pairs h
      simp only [decorate] at h
      injection h with h
      subst h
      simp
  | cons f rest ih =>
      intro pairs h
      simp only [decorate] at h
      cases hf : extract_dex_number f with
      | error e => rw [hf] at h; exact absurd h (by simp)
      | ok n =>
          rw [hf] at h
          cases hd : decorate rest with
          | error e => rw [hd] at h; exact absurd h (by simp)
          | ok ps =>
              rw [hd] at h
              injection h with h
              subst h
              obtain ⟨h1, h2⟩ := ih hd
              refine ⟨by simp [h1], ?_⟩
              intro p hp
              rcases List.mem_cons.mp hp with heq | hp2
              · subst heq; exact hf
              · exact h2 p hp2

/-- C3: whenever `dex_glob` succeeds, the result is `classes.dex` followed by
the secondary dex files sorted ascending by their `extract_dex_number` key;
on the spec's example set the result is exactly
`[classes.dex, classes2.dex, foo-3.dex, classes10.dex]`. -/
theorem dex_glob_primary_then_sorted :
    (∀ (files : List String) (out : List String), dex_glob files = Except.ok out →
      ∃ pairs : List (String × Nat),
        out = "classes.dex" :: pairs.map Prod.fst
          ∧ (pairs.map Prod.fst).Perm (secondariesOf files)
          ∧ (∀ p ∈ pairs, extract_dex_number p.1 = Except.ok p.2)
          ∧ List.Sorted dexKeyLE pairs)
      ∧ dex_glob ["classes.dex", "classes2.dex", "classes10.dex", "foo-3.dex"]
          = Except.ok ["classes.dex", "classes2.dex", "foo-3.dex", "classes10.dex"] := by
  constructor
  · intro files out h
    unfold dex_glob at h
    by_cases hp : "classes.dex" ∈ files
    · rw [if_pos hp] at h
      cases hd : decorate (secondariesOf files) with
      | error e => rw [hd] at h; exact absurd h (by simp)
      | ok pairs0 =>
          rw [hd] at h
          injection h with h
          obtain ⟨hfst, hok⟩ := decorate_ok hd
          refine ⟨List.insertionSort dexKeyLE pairs0, h.symm, ?_, ?_, ?_⟩
          · have h1 : ((List.insertionSort dexKeyLE pairs0).map Prod.fst).Perm
                (pairs0.map Prod.fst) :=
              (List.perm_insertionSort dexKeyLE pairs0).map Prod.fst
            rw [hfst] at h1
            exact h1
          · intro p hp2
            exact hok p ((List.perm_insertionSort dexKeyLE pairs0).mem_iff.mp hp2)
          · exact List.sorted_insertionSort dexKeyLE pairs0
    · rw [if_neg hp] at h
      exact absurd h (by simp)
  · rfl

/-- Witness for C3: the structural statement applied to the example input. -/
theorem dex_glob_primary_then_sorted_witness :
    ∃ pairs : List (String × Nat),
      ["classes.dex", "classes2.dex", "foo-3.dex", "classes10.dex"]
          = "classes.dex" :: pairs.map Prod.fst
        ∧ (pairs.map Prod.fst).Perm
            (secondariesOf ["classes.dex", "classes2.dex", "classes10.dex", "foo-3.dex"])
        ∧ (∀ p ∈ pairs, extract_dex_number p.1 = Except.ok p.2)
        ∧ List.Sorted dexKeyLE pairs :=
  dex_glob_primary_then_sorted.1
    ["classes.dex", "classes2.dex", "classes10.dex", "foo-3.dex"]
    ["classes.dex", "classes2.dex", "foo-3.dex", "classes10.dex"] (by rfl)

/-- C7 helper: without a hyphen-digit occurrence the `.*-(\d+)` branch fails. -/
theorem matchHyphenAt_eq_none :
    ∀ {cs : List Char}, hasHyphenDigit cs = false → matchHyphenAt cs = none := by
  intro cs
  induction cs with
  | nil => intro _; rfl
  | cons c rest ih =>
      intro h
      have h2 : hasHyphenDigit rest = false := by
        cases hx : hasHyphenDigit rest
        · rfl
        · rw [hasHyphenDigit, hx] at h; simp at h
      have h1 : (c == '-' && !(digitRun rest).isEmpty) = false := by
        cases hx : (c == '-' && !(digitRun rest).isEmpty)
        · rfl
        · rw [hasHyphenDigit, hx] at h; simp at h
      rw [matchHyphenAt, ih h2]
      cases hc2 : (c == '-')
      · simp [hc2]
      · rw [hc2] at h1
        simp only [Bool.true_and, Bool.not_eq_false'] at h1
        simp [hc2, h1]

/-- C7 helper: without a classes-digit occurrence at this position the
`classes(\d+)` branch fails. -/
theorem matchClassesAt_eq_none {c : Char} {rest : List Char}
    (h : (classesChars.isPrefixOf (c :: rest)
        && !(digitRun ((c :: rest).drop 7)).isEmpty) = false) :
    matchClassesAt (c :: rest) = none := by
  rw [matchClassesAt]
  cases hp : classesChars.isPrefixOf (c :: rest)
  · simp [hp]
  · rw [hp] at h
    simp only [Bool.true_and, Bool.not_eq_false'] at h
    simp only [List.isEmpty_iff, List.drop_succ_cons] at h
    simp [hp, h]

/-- C7 helper: with no digit after `classes` and no digit after a hyphen the
whole search fails. -/
theorem reSearchGroup2_eq_none :
    ∀ {cs : List Char}, hasClassesDigit cs = false → hasHyphenDigit cs = false →
      reSearchGroup2 cs = none := by
  intro cs
  induction cs with
  | nil => intro _ _; rfl
  | cons c rest ih =>
      intro hc hh
      have hc2 : hasClassesDigit rest = false := by
        cases hx : hasClassesDigit rest
        · rfl
        · rw [hasClassesDigit, hx] at hc; simp at hc
      have hc1 : (classesChars.isPrefixOf (c :: rest)
          && !(digitRun ((c :: rest).drop 7)).isEmpty) = false := by
        cases hx : (classesChars.isPrefixOf (c :: rest)
            && !(digitRun ((c :: rest).drop 7)).isEmpty)
        · rfl
        · rw [hasClassesDigit, hx] at hc; simp at hc
      have hh2 : hasHyphenDigit rest = false := by
        cases hx : hasHyphenDigit rest
        · rfl
        · rw [hasHyphenDigit, hx] at hh; simp at hh
      rw [reSearchGroup2, matchClassesAt_eq_none hc1, matchHyphenAt_eq_none hh, ih hc2 hh2]

/-- C7: a filename in which no digit run follows the literal `classes` and no
digit follows a hyphen makes `extract_dex_number` raise
`Bad secondary dex name`, and `dex_glob` on a directory holding such a
secondary (the spec's `extra.dex`) therefore fails with that error. -/
theorem extract_dex_number_bad_name (s : String)
    (hc : hasClassesDigit s.data = false) (hh : hasHyphenDigit s.data = false) :
    extract_dex_number s = Except.error ("Bad secondary dex name: " ++ s)
      ∧ dex_glob ["classes.dex", "extra.dex"]
          = Except.error ("Bad secondary dex name: " ++ "extra.dex") := by
  constructor
  · unfold extract_dex_number
    rw [reSearchGroup2_eq_none hc hh]
  · rfl

/-- Witness for C7 at the spec's example `extra.dex`. -/
theorem extract_dex_number_bad_name_witness :
    hasClassesDigit "extra.dex".data = false
      ∧ hasHyphenDigit "extra.dex".data = false
      ∧ extract_dex_number "extra.dex"
          = Except.error ("Bad secondary dex name: " ++ "extra.dex") :=
  ⟨by decide, by decide,
    (extract_dex_number_bad_name "extra.dex" (by decide) (by decide)).1⟩

/-- C8: everything queued for expansion is a `libs.xzs` file or a `libs.zstd`
file of positive size — a zero-byte `libs.zstd` is never queued — and when
the walk holds no qualifying file (for example when every candidate is a
zero-byte `libs.zstd`), the queue stays empty, no `lib`/scratch pair is
created, and `temporary_libs_dir` remains unset. -/
theorem library_enter_skips_empty_zstd (extracted_apk_dir : String)
    (walk : List (String × List (String × Nat))) (lib_dir_exists : Bool) :
    (∀ path ∈ libs_to_extract walk, ∃ entry ∈ walk, ∃ p ∈ entry.2,
        path = entry.1 ++ "/" ++ p.1
          ∧ (p.1 = xz_lib_name ∨ (p.1 = zstd_lib_name ∧ 0 < p.2)))
      ∧ ((∀ entry ∈ walk, ∀ p ∈ entry.2,
              p.1 ≠ xz_lib_name ∧ (p.1 = zstd_lib_name → p.2 = 0)) →
          libs_to_extract walk = []
            ∧ library_enter extracted_apk_dir walk lib_dir_exists = none) := by
  constructor
  · intro path hp
    rw [libs_to_extract_eq_bind] at hp
    rcases List.mem_flatMap.mp hp with ⟨entry, hentry, hpath⟩
    unfold dirLibs at hpath
    rcases List.mem_append.mp hpath with h | h
    · rcases List.mem_map.mp h with ⟨p, hpf, rfl⟩
      rcases List.mem_filter.mp hpf with ⟨hpmem, hcond⟩
      exact ⟨entry, hentry, p, hpmem, rfl, Or.inl (by simpa using hcond)⟩
    · rcases List.mem_map.mp h with ⟨p, hpf, rfl⟩
      rcases List.mem_filter.mp hpf with ⟨hpmem, hcond⟩
      rw [Bool.and_eq_true] at hcond
      exact ⟨entry, hentry, p, hpmem, rfl,
        Or.inr ⟨by simpa using hcond.1, by simpa using hcond.2⟩⟩
  · intro hcond
    have hempty : libs_to_extract walk = [] := by
      rw [libs_to_extract_eq_bind]
      apply List.eq_nil_iff_forall_not_mem.mpr
      intro path hp
      rcases List.mem_flatMap.mp hp with ⟨entry, hentry, hpath⟩
      unfold dirLibs at hpath
      rcases List.mem_append.mp hpath with h | h
      · rcases List.mem_map.mp h with ⟨p, hpf, _⟩
        rcases List.mem_filter.mp hpf with ⟨hpmem, hc⟩
        exact (hcond entry hentry p hpmem).1 (by simpa using hc)
      · rcases List.mem_map.mp h with ⟨p, hpf, _⟩
        rcases List.mem_filter.mp hpf with ⟨hpmem, hc⟩
        rw [Bool.and_eq_true] at hc
        have hz : p.1 = zstd_lib_name := by simpa using hc.1
        have hpos : 0 < p.2 := by simpa using hc.2
        have h0 : p.2 = 0 := (hcond entry hentry p hpmem).2 hz
        omega
    exact ⟨hempty, by simp [library_enter, hempty]⟩

/-- Witness for C8: a walk whose only candidate is a zero-byte `libs.zstd`
(the non-matching `readme.txt` is ignored as well). -/
theorem library_enter_skips_empty_zstd_witness :
    libs_to_extract [("d", [("libs.zstd", 0), ("readme.txt", 7)])] = []
      ∧ library_enter "d" [("d", [("libs.zstd", 0), ("readme.txt", 7)])] false = none :=
  (library_enter_skips_empty_zstd "d" [("d", [("libs.zstd", 0), ("readme.txt", 7)])] false).2
    (by decide)

/-- C2 helper: the walk over two sorted subdirectory lists agrees when the
name sequences agree and same-named subtrees walk identically. -/
theorem walkSubdirs_congr (pre : String) :
    ∀ (s1 s2 : List (String × FTree)),
      s1.map Prod.fst = s2.map Prod.fst →
      (∀ name t₁ t₂, (name, t₁) ∈ s1 → (name, t₂) ∈ s2 →
        ∀ q, walkFiles q t₁ = walkFiles q t₂) →
      walkSubdirs pre s1 = walkSubdirs pre s2 := by
  intro s1
  induction s1 with
  | nil =>
      intro s2 hmap _
      cases s2 with
      | nil => rfl
      | cons b r2 => simp at hmap
  | cons a r1 ih =>
      intro s2 hmap hsub
      obtain ⟨n1, u1⟩ := a
      cases s2 with
      | nil => simp at hmap
      | cons b r2 =>
          obtain ⟨n2, u2⟩ := b
          simp only [List.map_cons, List.cons.injEq] at hmap
          obtain ⟨hname, hrest⟩ := hmap
          subst hname
          have hw := hsub n1 u1 u2 (List.mem_cons_self _ _) (List.mem_cons_self _ _)
            (pre ++ n1 ++ "/")
          simp only [walkSubdirs]
          rw [hw, ih r2 hrest (fun name t₁ t₂ h1 h2 =>
            hsub name t₁ t₂ (List.mem_cons_of_mem _ h1) (List.mem_cons_of_mem _ h2))]

/-- C2 helper: equivalent trees produce the same walk, by strong induction on
the tree size. -/
theorem walkFiles_eq_of_treeEquiv :
    ∀ (n : Nat) (t₁ t₂ : FTree), sizeOf t₁ ≤ n → TreeEquiv t₁ t₂ →
      ∀ pre, walkFiles pre t₁ = walkFiles pre t₂ := by
  intro n
  induction n with
  | zero =>
      intro t₁ t₂ hs _ _
      cases t₁ with
      | node f d =>
          simp only [FTree.node.sizeOf_spec] at hs
          omega
  | succ n ih =>
      intro t₁ t₂ hs heq pre
      cases heq with
      | node hf hnames hsub =>
          rename_i files₁ files₂ dirs₁ dirs₂
          simp only [walkFiles]
          have hfiles : sortStr files₁ = sortStr files₂ := by
            unfold sortStr
            exact List.eq_of_perm_of_sorted
              (((List.perm_insertionSort (· ≤ ·) files₁).trans hf).trans
                (List.perm_insertionSort (· ≤ ·) files₂).symm)
              (List.sorted_insertionSort (· ≤ ·) files₁)
              (List.sorted_insertionSort (· ≤ ·) files₂)
          rw [hfiles]
          congr 1
          apply walkSubdirs_congr
          · have e1 : (((sortDirs dirs₁).map Prod.fst).Perm
                ((sortDirs dirs₂).map Prod.fst)) :=
              (((List.perm_insertionSort dirLE dirs₁).map Prod.fst).trans hnames).trans
                ((List.perm_insertionSort dirLE dirs₂).map Prod.fst).symm
            have s1 : List.Sorted (· ≤ ·) ((sortDirs dirs₁).map Prod.fst) :=
              List.Pairwise.map Prod.fst (fun _ _ hab => hab)
                (List.sorted_insertionSort dirLE dirs₁)
            have s2 : List.Sorted (· ≤ ·) ((sortDirs dirs₂).map Prod.fst) :=
              List.Pairwise.map Prod.fst (fun _ _ hab => hab)
                (List.sorted_insertionSort dirLE dirs₂)
            exact List.eq_of_perm_of_sorted e1 s1 s2
          · intro name u1 u2 h1 h2 q
            have hm1 : (name, u1) ∈ dirs₁ :=
              (List.perm_insertionSort dirLE dirs₁).mem_iff.mp h1
            have hm2 : (name, u2) ∈ dirs₂ :=
              (List.perm_insertionSort dirLE dirs₂).mem_iff.mp h2
            have hlt : sizeOf (name, u1) < sizeOf dirs₁ := List.sizeOf_lt_of_mem hm1
            have hb : sizeOf u1 ≤ n := by
              simp only [FTree.node.sizeOf_spec] at hs
              simp only [Prod.mk.sizeOf_spec] at hlt
              omega
            exact ih u1 u2 hb (hsub name u1 u2 hm1 hm2) q

/-- C2: `ZipManager.__exit__` emits archive entries in a deterministic order:
any two directory trees holding the same contents — however the OS orders the
`dirnames` and `filenames` lists at each level — walk to the identical entry
sequence, namely a depth-first traversal with subdirectory names sorted at
every level and file names sorted within each directory. -/
theorem zip_exit_order_deterministic (t₁ t₂ : FTree) (h : TreeEquiv t₁ t₂) :
    walkFiles "" t₁ = walkFiles "" t₂ :=
  walkFiles_eq_of_treeEquiv (sizeOf t₁) t₁ t₂ (Nat.le_refl _) h ""

/-- Witness for C2: the same working tree listed in two different OS orders
walks identically. -/
theorem zip_exit_order_deterministic_witness :
    TreeEquiv
        (FTree.node ["b.txt", "a.txt"] [("sub", FTree.node ["c.txt"] [])])
        (FTree.node ["a.txt", "b.txt"] [("sub", FTree.node ["c.txt"] [])])
      ∧ walkFiles "" (FTree.node ["b.txt", "a.txt"] [("sub", FTree.node ["c.txt"] [])])
          = walkFiles "" (FTree.node ["a.txt", "b.txt"] [("sub", FTree.node ["c.txt"] [])]) := by
  have he : TreeEquiv
      (FTree.node ["b.txt", "a.txt"] [("sub", FTree.node ["c.txt"] [])])
      (FTree.node ["a.txt", "b.txt"] [("sub", FTree.node ["c.txt"] [])]) := by
    apply TreeEquiv.node
    · decide
    · decide
    · intro name u1 u2 h1 h2
      simp only [List.mem_singleton, Prod.mk.injEq] at h1 h2
      obtain ⟨-, h1⟩ := h1
      obtain ⟨-, h2⟩ := h2
      subst h1
      subst h2
      apply TreeEquiv.node
      · exact List.Perm.refl _
      · exact List.Perm.refl _
      · intro _ _ _ hx _
        simp at hx
  exact ⟨he, zip_exit_order_deterministic _ _ he⟩

/-- C10: when `__enter__` queued at least one blob, the directory
`__exit__` hands to `shutil.rmtree` depends on whether `lib` pre-existed under
the extracted tree: only the `__extracted_libs__` scratch subdirectory when it
did, the whole freshly created `lib` directory when it did not. -/
theorem library_exit_removed_dir (extracted_apk_dir : String)
    (walk : List (String × List (String × Nat))) (lib_dir_exists : Bool)
    (h : 0 < (libs_to_extract walk).length) :
    library_exit (library_enter extracted_apk_dir walk lib_dir_exists)
      = some (if lib_dir_exists
          then extracted_apk_dir ++ "/lib" ++ "/__extracted_libs__"
          else extracted_apk_dir ++ "/lib") := by
  cases lib_dir_exists <;> simp [library_exit, library_enter, ensure_libs_dir, h]

/-- Witness for C10 on a tree holding one `libs.xzs` blob, in both the
pre-existing-`lib` and fresh-`lib` cases. -/
theorem library_exit_removed_dir_witness :
    0 < (libs_to_extract [("apk", [("libs.xzs", 4)])]).length
      ∧ library_exit (library_enter "apk" [("apk", [("libs.xzs", 4)])] true)
          = some ("apk" ++ "/lib" ++ "/__extracted_libs__")
      ∧ library_exit (library_enter "apk" [("apk", [("libs.xzs", 4)])] false)
          = some ("apk" ++ "/lib") := by
  refine ⟨by decide, ?_, ?_⟩
  · simpa using library_exit_removed_dir "apk" [("apk", [("libs.xzs", 4)])] true (by decide)
  · simpa using library_exit_removed_dir "apk" [("apk", [("libs.xzs", 4)])] false (by decide)

end Redex
